import Mathlib

/-!
Shallow embedding of the selection state machine and region operations of
abiSnip (src/abiSnip/abiSnip.cpp), together with theorems checking the
natural-language specification against the code.

Conventions:
- Win32 LONG/int coordinates are modelled as Lean Int (overflow is irrelevant
  at desktop pixel magnitudes and the code never relies on wraparound).
- C integer division (truncation toward zero) is modelled by Int.tdiv.
- The capture bitmap is modelled by its width, height and a total pixel
  function; GetPixel is modelled as returning none outside the bitmap
  (GDI returns CLR_INVALID there, which differs from every valid COLORREF).
-/

namespace AbiSnip

/-- UNINITIALIZEDLONG: the sentinel 0x80000000 interpreted as a signed LONG. -/
def UNINITIALIZEDLONG : Int := -2147483648

/-- Win32 RECT as used by the program: signed pixel coordinates, not
necessarily normalized (left may exceed right, top may exceed bottom). -/
structure Rect where
  left : Int
  top : Int
  right : Int
  bottom : Int
deriving DecidableEq, Repr

/-- The capture bitmap: dimensions as reported by GetObject plus the pixel
raster (a total function; only values at coordinates inside the bitmap are
meaningful, GetPixel guards out-of-range access). -/
structure Bitmap where
  bmWidth : Int
  bmHeight : Int
  pixel : Int → Int → Nat

/-- Program states (enum APPSTATE in the source). -/
inductive APPSTATE where
  | stateTrayIcon
  | stateFirstPoint
  | statePointA
  | statePointB
deriving DecidableEq, Repr

open APPSTATE

/-- limitXtoBitmap: clamps an x coordinate into [0, bmWidth - 1]
(modelled for a session with a present bitmap, g_hBitmap != NULL). -/
def limitXtoBitmap (bm : Bitmap) (X : Int) : Int :=
  if X < 0 then 0
  else if X > bm.bmWidth - 1 then bm.bmWidth - 1
  else X

/-- limitYtoBitmap: clamps a y coordinate into [0, bmHeight - 1]. -/
def limitYtoBitmap (bm : Bitmap) (Y : Int) : Int :=
  if Y < 0 then 0
  else if Y > bm.bmHeight - 1 then bm.bmHeight - 1
  else Y

/-- isSelectionValid: a selection is valid iff none of its four fields is
the UNINITIALIZEDLONG sentinel. -/
def isSelectionValid (rect : Rect) : Bool :=
  if rect.left = UNINITIALIZEDLONG ∨ rect.right = UNINITIALIZEDLONG ∨
     rect.top = UNINITIALIZEDLONG ∨ rect.bottom = UNINITIALIZEDLONG then
    false
  else
    true

/-- normalizeRectangle: reorders the corner fields so that left ≤ right and
top ≤ bottom. -/
def normalizeRectangle (rect : Rect) : Rect :=
  { left := if rect.right ≥ rect.left then rect.left else rect.right
    right := if rect.right ≥ rect.left then rect.right else rect.left
    top := if rect.bottom ≥ rect.top then rect.top else rect.bottom
    bottom := if rect.bottom ≥ rect.top then rect.bottom else rect.top }

/-- The horizontal block of resizeSelection: if shrinking and the width is
too small for decreasing by stepSize, left and right collapse to the
clamped midpoint (right + left) / 2; otherwise both move symmetrically,
with the signs swapped for an inverted (left > right) selection. -/
def resizeSelectionX (bm : Bitmap) (stepSize : Int) (sel : Rect) : Rect :=
  if stepSize < 0 ∧ |sel.right - sel.left| < |stepSize * 2| then
    let l := limitXtoBitmap bm (Int.tdiv (sel.right + sel.left) 2)
    { sel with left := l, right := l }
  else if sel.left ≤ sel.right then
    { sel with left := limitXtoBitmap bm (sel.left - stepSize)
               right := limitXtoBitmap bm (sel.right + stepSize) }
  else
    { sel with left := limitXtoBitmap bm (sel.left + stepSize)
               right := limitXtoBitmap bm (sel.right - stepSize) }

/-- The vertical block of resizeSelection. Mirrors the source exactly: the
collapse branch computes (top + top) / 2, i.e. the old top, where the
horizontal block computes the true midpoint (right + left) / 2. -/
def resizeSelectionY (bm : Bitmap) (stepSize : Int) (sel : Rect) : Rect :=
  if stepSize < 0 ∧ |sel.top - sel.bottom| < |stepSize * 2| then
    let t := limitYtoBitmap bm (Int.tdiv (sel.top + sel.top) 2)
    { sel with top := t, bottom := t }
  else if sel.top ≤ sel.bottom then
    { sel with top := limitYtoBitmap bm (sel.top - stepSize)
               bottom := limitYtoBitmap bm (sel.bottom + stepSize) }
  else
    { sel with top := limitYtoBitmap bm (sel.top + stepSize)
               bottom := limitYtoBitmap bm (sel.bottom - stepSize) }

/-- resizeSelection: grows/shrinks the selection by stepSize on both axes
(the horizontal block runs first, then the vertical block on its result).
The state guard returns the selection unchanged outside statePointA and
statePointB (the source returns without touching g_selection). -/
def resizeSelection (bm : Bitmap) (state : APPSTATE) (stepSize : Int)
    (sel : Rect) : Rect :=
  if state ≠ statePointA ∧ state ≠ statePointB then sel
  else resizeSelectionY bm stepSize (resizeSelectionX bm stepSize sel)

/-- A 1920x1080 single-monitor bitmap with an all-black raster, used by
concrete witnesses. -/
def bmFullHD : Bitmap := { bmWidth := 1920, bmHeight := 1080, pixel := fun _ _ => 0 }

example : resizeSelection bmFullHD statePointB 5
    { left := 100, top := 100, right := 400, bottom := 300 } =
    { left := 95, top := 95, right := 405, bottom := 305 } := by decide

example : resizeSelection bmFullHD statePointB (-200)
    { left := 100, top := 100, right := 400, bottom := 300 } =
    { left := 250, top := 100, right := 250, bottom := 100 } := by decide

/-! ### Pixel sampling and the seek-color-edge walk (setBeforeColorChange) -/

/-- GetPixel on the screenshot memory DC: some color inside the bitmap,
none (CLR_INVALID) outside it. -/
def getPixel (bm : Bitmap) (x y : Int) : Option Nat :=
  if 0 ≤ x ∧ x ≤ bm.bmWidth - 1 ∧ 0 ≤ y ∧ y ≤ bm.bmHeight - 1 then
    some (bm.pixel x y)
  else
    none

/-- Arrow keys accepted by setBeforeColorChange (other key codes hit the
default branch and fail). -/
inductive ArrowKey where
  | up
  | down
  | left
  | right
deriving DecidableEq, Repr

/-- The (directionX, directionY) pair assigned by the switch on the
virtual key code. -/
def arrowDirection : ArrowKey → Int × Int
  | ArrowKey.up => (0, -1)
  | ArrowKey.down => (0, 1)
  | ArrowKey.left => (-1, 0)
  | ArrowKey.right => (1, 0)

/-- The while(true) loop of setBeforeColorChange, with explicit fuel
(the real loop terminates because every iteration moves one pixel toward
a bitmap border and stops at the border; seekFuel below is always enough).
Break order mirrors the source: the color test on the next pixel comes
first, then the four bounds tests, then the clamped advance. -/
def seekLoop (bm : Bitmap) (ref : Option Nat) (dX dY : Int) :
    Nat → Int × Int → Int × Int
  | 0, p => p
  | fuel + 1, (x, y) =>
    if getPixel bm (x + dX) (y + dY) ≠ ref then (x, y)
    else if x + dX < 0 ∨ x + dX > bm.bmWidth - 1 ∨
            y + dY < 0 ∨ y + dY > bm.bmHeight - 1 then (x, y)
    else seekLoop bm ref dX dY fuel
      (limitXtoBitmap bm (x + dX), limitYtoBitmap bm (y + dY))

/-- Fuel that dominates the length of any seek walk: the walk stays inside
the bitmap and moves one pixel per iteration along a single axis. -/
def seekFuel (bm : Bitmap) : Nat := (bm.bmWidth + bm.bmHeight).toNat + 1

/-- setBeforeColorChange: walks from (x, y) in the direction of the arrow
key until the sampled color differs from the color at the start position
or the bitmap edge is reached; returns the final position (the source
updates x and y by reference and returns TRUE). -/
def setBeforeColorChange (bm : Bitmap) (key : ArrowKey) (x y : Int) :
    Int × Int :=
  let d := arrowDirection key
  let referenceColor := getPixel bm x y
  seekLoop bm referenceColor d.1 d.2 (seekFuel bm) (x, y)

/-! ### WndProc handlers -/

/-- WM_NEXTSTATE (Enter pressed, or left mouse click with the click
position in lParam): from stateFirstPoint fixes point B at point A (or at
the clamped click position) and enters statePointB; from an editing state
saves the selection and returns to the tray icon only when the rectangle
is non-degenerate on both axes. Result: new state, new selection, and
whether the selection was handed to saveSelection. -/
def nextStateConfirm (bm : Bitmap) (state : APPSTATE) (sel : Rect)
    (click : Option (Int × Int)) : APPSTATE × Rect × Bool :=
  if state = stateFirstPoint then
    match click with
    | some (mx, my) =>
      let l := limitXtoBitmap bm mx
      let t := limitYtoBitmap bm my
      (statePointB, { left := l, top := t, right := l, bottom := t }, false)
    | none =>
      (statePointB,
       { left := sel.left, top := sel.top, right := sel.left, bottom := sel.top },
       false)
  else if state = statePointA ∨ state = statePointB then
    if sel.left ≠ sel.right ∧ sel.top ≠ sel.bottom then
      (stateTrayIcon, sel, true)
    else
      (state, sel, false)
  else
    (state, sel, false)

/-- The selection/state initialization at the end of startCaptureGUI.
mouseRel is the cursor position already translated into bitmap
coordinates (mouse.x - g_appWindowPos.x, mouse.y - g_appWindowPos.y). -/
def startCaptureInit (bm : Bitmap) (stored : Rect) (mouseRel : Int × Int) :
    APPSTATE × Rect :=
  if isSelectionValid stored then
    (statePointB,
     { left := limitXtoBitmap bm stored.left
       top := limitYtoBitmap bm stored.top
       right := limitXtoBitmap bm stored.right
       bottom := limitYtoBitmap bm stored.bottom })
  else
    (stateFirstPoint,
     { left := limitXtoBitmap bm mouseRel.1
       top := limitYtoBitmap bm mouseRel.2
       right := UNINITIALIZEDLONG
       bottom := UNINITIALIZEDLONG })

/-- Result of a WndProc key handler: new program state, new selection and
the position the cursor is warped to, if any (none = cursor untouched). -/
structure HandlerResult where
  appState : APPSTATE
  selection : Rect
  cursorWarp : Option (Int × Int)
deriving DecidableEq, Repr

/-- WM_SELECTALL: sets the selection to the full bitmap extent and the
state to statePointB; deliberately does not call SetCursorPos (modelled
with a bitmap present, g_hBitmap != NULL and GetObject succeeding). The
prior state and selection are ignored by the handler. -/
def selectAllHandler (bm : Bitmap) (state : APPSTATE) (sel : Rect) :
    HandlerResult :=
  { appState := statePointB
    selection :=
      { left := limitXtoBitmap bm 0
        top := limitYtoBitmap bm 0
        right := limitXtoBitmap bm (bm.bmWidth - 1)
        bottom := limitYtoBitmap bm (bm.bmHeight - 1) }
    cursorWarp := none }

/-- The shared state/selection effect of the WM_KEYDOWN handlers for keys
P (pixelateScreenshotRect) and B (markScreenshotRect): in an editing state
the transform is applied to the bitmap, point B is reset to the sentinel,
the state returns to stateFirstPoint and the cursor is warped to point A;
in any other state nothing happens. -/
def regionTransformReset (state : APPSTATE) (sel : Rect) : HandlerResult :=
  if state = statePointB ∨ state = statePointA then
    { appState := stateFirstPoint
      selection := { sel with right := UNINITIALIZEDLONG, bottom := UNINITIALIZEDLONG }
      cursorWarp := some (sel.left, sel.top) }
  else
    { appState := state, selection := sel, cursorWarp := none }

/-- WM_KEYDOWN VK_INSERT: stores the live selection (also persisted to the
registry, outside this model) if it is valid; otherwise the stored
selection is unchanged. -/
def insertStore (sel stored : Rect) : Rect :=
  if isSelectionValid sel then sel else stored

/-- WM_KEYDOWN VK_HOME: if the stored selection is valid, loads it into
the live selection clamped to the bitmap, switches to statePointB and
warps the cursor to point B; otherwise nothing happens. -/
def homeRecall (bm : Bitmap) (state : APPSTATE) (sel stored : Rect) :
    HandlerResult :=
  if isSelectionValid stored then
    let recalled : Rect :=
      { left := limitXtoBitmap bm stored.left
        right := limitXtoBitmap bm stored.right
        top := limitYtoBitmap bm stored.top
        bottom := limitYtoBitmap bm stored.bottom }
    { appState := statePointB
      selection := recalled
      cursorWarp := some (recalled.right, recalled.bottom) }
  else
    { appState := state, selection := sel, cursorWarp := none }

/-! ### Keyboard hook (KeyboardProc) -/

/-- HC_ACTION. -/
def HC_ACTION : Int := 0

/-- Virtual key code of the Print Screen key (VK_SNAPSHOT). -/
def VK_SNAPSHOT : Nat := 44

/-- What the low-level keyboard hook does with one event: swallow it
(return 1, optionally after sending WM_STARTED to the main window) or pass
it on (CallNextHookEx). -/
inductive HookAction where
  | swallow (startSent : Bool)
  | callNext
deriving DecidableEq, Repr

/-- KeyboardProc: for an HC_ACTION event with the Print Screen key, sends
WM_STARTED exactly when the program is in the tray state and returns 1
(the keypress is never forwarded); every other event goes to
CallNextHookEx. -/
def keyboardProc (nCode : Int) (state : APPSTATE) (vkCode : Nat) :
    HookAction :=
  if nCode = HC_ACTION then
    if vkCode = VK_SNAPSHOT then
      HookAction.swallow (state = stateTrayIcon)
    else
      HookAction.callNext
  else
    HookAction.callNext

/-! ### markScreenshotRect (key B region transform on the bitmap) -/

/-- InflateRect: grows (or, for negative amounts, shrinks) a rectangle by
the given amount on every side. -/
def inflateRect (rect : Rect) (amount : Int) : Rect :=
  { left := rect.left - amount
    top := rect.top - amount
    right := rect.right + amount
    bottom := rect.bottom + amount }

/-- Membership of a pixel in the region a GDI call covers when handed
rect.left, rect.top and extents rect.right - rect.left + 1,
rect.bottom - rect.top + 1 (both corners inclusive, as in the source's
BitBlt/AlphaBlend calls; empty when the rectangle is inverted). -/
def inRegion (rect : Rect) (x y : Int) : Prop :=
  rect.left ≤ x ∧ x ≤ rect.right ∧ rect.top ≤ y ∧ y ≤ rect.bottom

instance (rect : Rect) (x y : Int) : Decidable (inRegion rect x y) := by
  unfold inRegion; infer_instance

/-- AlphaBlend of a solid MARKCOLOR source with constant alpha over the
region of rect: every pixel of the region is replaced by the blend of its
old value with the frame color. The per-pixel GDI blend arithmetic is kept
abstract as blend (the claims checked here do not depend on it). -/
def alphaBlendRegion (raster : Int → Int → Nat) (rect : Rect)
    (blend : Nat → Nat) : Int → Int → Nat :=
  fun x y => if inRegion rect x y then blend (raster x y) else raster x y

/-- The restoring BitBlt: pixels of the region are taken from the saved
copy, everything else from the current raster. -/
def restoreRegion (raster saved : Int → Int → Nat) (rect : Rect) :
    Int → Int → Nat :=
  fun x y => if inRegion rect x y then saved x y else raster x y

/-- markScreenshotRect: draws a semi-transparent frame of the given line
width around the normalized selection. The inner region (selection
deflated by lineWidth / 2 + 1) is copied to a buffer, the frame color is
alpha-blended over the outer region (selection inflated by lineWidth / 2),
and the buffer is copied back, so the blend only survives on the band
between the two regions. Returns none on the argument checks that jump to
FAIL (lineWidth < 1 or invalid selection; the bitmap is modelled as
present), and also when the deflated inner rectangle has a negative extent
(the inner CreateCompatibleBitmap call fails there, before the blend,
leaving the raster untouched), otherwise the new raster. -/
def markScreenshotRect (bm : Bitmap) (rect : Rect) (lineWidth : Int)
    (blend : Nat → Nat) : Option (Int → Int → Nat) :=
  if lineWidth < 1 then none
  else if ¬ isSelectionValid rect then none
  else
    let inner := inflateRect (normalizeRectangle rect) (-(Int.tdiv lineWidth 2 + 1))
    let outer := inflateRect (normalizeRectangle rect) (Int.tdiv lineWidth 2)
    if inner.right - inner.left + 1 < 0 ∨ inner.bottom - inner.top + 1 < 0 then
      none
    else
      let saved := bm.pixel
      some (restoreRegion (alphaBlendRegion bm.pixel outer blend) saved inner)

/-! ### Helper lemmas -/

/-- Clamping is the identity on x coordinates already inside the bitmap. -/
lemma limitXtoBitmap_id (bm : Bitmap) (x : Int) (h0 : 0 ≤ x)
    (h1 : x ≤ bm.bmWidth - 1) : limitXtoBitmap bm x = x := by
  unfold limitXtoBitmap
  rw [if_neg (by omega), if_neg (by omega)]

/-- Clamping is the identity on y coordinates already inside the bitmap. -/
lemma limitYtoBitmap_id (bm : Bitmap) (y : Int) (h0 : 0 ≤ y)
    (h1 : y ≤ bm.bmHeight - 1) : limitYtoBitmap bm y = y := by
  unfold limitYtoBitmap
  rw [if_neg (by omega), if_neg (by omega)]

/-- A rectangle with non-negative fields is never the sentinel rectangle. -/
lemma isSelectionValid_of_nonneg (sel : Rect) (h1 : 0 ≤ sel.left)
    (h2 : 0 ≤ sel.right) (h3 : 0 ≤ sel.top) (h4 : 0 ≤ sel.bottom) :
    isSelectionValid sel = true := by
  unfold isSelectionValid UNINITIALIZEDLONG
  rw [if_neg (by push_neg; refine ⟨by omega, by omega, by omega, by omega⟩)]

/-! ### C1: resize-by-step axis collapse -/

/-- C1. The claim states that when shrinking collapses an axis, the axis
collapses to its midpoint on both axes. The code does so only for the
horizontal axis; the vertical collapse branch computes
(top + top) / 2 = top, so top and bottom both become the old top, not the
midpoint of the old top and bottom. Evaluated at the failing input
(statePointB, 1920x1080 bitmap, selection {100,100,400,300}, step -200):
both axes have spans (300 and 200) below 2*200, the horizontal axis
collapses to the midpoint 250, but the vertical axis collapses to 100
while the midpoint of top and bottom is (100 + 300) / 2 = 200. -/
theorem resizeSelection_vertical_collapse_not_midpoint :
    resizeSelection bmFullHD APPSTATE.statePointB (-200)
      { left := 100, top := 100, right := 400, bottom := 300 } =
      { left := 250, top := 100, right := 250, bottom := 100 } ∧
    Int.tdiv (100 + 300) 2 = 200 := by
  constructor
  · decide
  · decide

/-! ### C3: confirming a degenerate rectangle is a silent no-op -/

/-- C3. In an editing state (statePointA or statePointB), confirm (Enter
or left click) with equal anchors on at least one axis leaves the state
and the selection unchanged and performs no save; the selection is handed
to saveSelection exactly when point A and point B differ on both axes. -/
theorem nextStateConfirm_degenerate_noop (bm : Bitmap) (state : APPSTATE)
    (sel : Rect) (click : Option (Int × Int))
    (hstate : state = APPSTATE.statePointA ∨ state = APPSTATE.statePointB) :
    ((sel.left = sel.right ∨ sel.top = sel.bottom) →
      nextStateConfirm bm state sel click = (state, sel, false)) ∧
    ((nextStateConfirm bm state sel click).2.2 = true ↔
      (sel.left ≠ sel.right ∧ sel.top ≠ sel.bottom)) := by
  have hns : state ≠ APPSTATE.stateFirstPoint := by
    rcases hstate with h | h <;> subst h <;> simp
  unfold nextStateConfirm
  rw [if_neg hns, if_pos hstate]
  constructor
  · intro hdeg
    rw [if_neg (by tauto)]
  · by_cases hcond : sel.left ≠ sel.right ∧ sel.top ≠ sel.bottom
    · rw [if_pos hcond]
      simpa using hcond
    · rw [if_neg hcond]
      simpa using hcond

/-- Concrete instance of the degenerate-confirm no-op: Enter in
statePointB on a zero-width selection changes nothing and saves nothing. -/
theorem nextStateConfirm_degenerate_noop_witness :
    nextStateConfirm bmFullHD APPSTATE.statePointB
      { left := 5, top := 5, right := 5, bottom := 9 } none =
      (APPSTATE.statePointB, { left := 5, top := 5, right := 5, bottom := 9 }, false) :=
  (nextStateConfirm_degenerate_noop bmFullHD APPSTATE.statePointB
    { left := 5, top := 5, right := 5, bottom := 9 } none (Or.inr rfl)).1 (Or.inl rfl)

/-! ### C4: selection initialization at capture-session start -/

/-- The fully-unset rectangle (the initializer of g_selection and
g_storedSelection). -/
def uninitializedRect : Rect :=
  { left := UNINITIALIZEDLONG, top := UNINITIALIZEDLONG
    right := UNINITIALIZEDLONG, bottom := UNINITIALIZEDLONG }

/-- C4. At capture-session start: with a valid stored selection the state
becomes statePointB and both corners are loaded from storage clamped to
the bitmap; without one the state becomes stateFirstPoint with point A at
the clamped mouse position and point B the unset sentinel. In particular,
mouse at (500,300) on a 1920x1080 bitmap with no stored selection yields
(stateFirstPoint, {500, 300, unset, unset}). -/
theorem startCaptureInit_spec (bm : Bitmap) (stored : Rect)
    (mouseRel : Int × Int) :
    (isSelectionValid stored = true →
      startCaptureInit bm stored mouseRel =
        (APPSTATE.statePointB,
         { left := limitXtoBitmap bm stored.left
           top := limitYtoBitmap bm stored.top
           right := limitXtoBitmap bm stored.right
           bottom := limitYtoBitmap bm stored.bottom })) ∧
    (isSelectionValid stored = false →
      startCaptureInit bm stored mouseRel =
        (APPSTATE.stateFirstPoint,
         { left := limitXtoBitmap bm mouseRel.1
           top := limitYtoBitmap bm mouseRel.2
           right := UNINITIALIZEDLONG
           bottom := UNINITIALIZEDLONG })) ∧
    startCaptureInit bmFullHD uninitializedRect (500, 300) =
      (APPSTATE.stateFirstPoint,
       { left := 500, top := 300
         right := UNINITIALIZEDLONG, bottom := UNINITIALIZEDLONG }) := by
  refine ⟨?_, ?_, ?_⟩
  · intro h
    unfold startCaptureInit
    rw [if_pos h]
  · intro h
    unfold startCaptureInit
    rw [if_neg (by simp [h])]
  · decide

/-- Concrete instance of the capture-start scenario, by the theorem. -/
theorem startCaptureInit_spec_witness :
    startCaptureInit bmFullHD uninitializedRect (500, 300) =
      (APPSTATE.stateFirstPoint,
       { left := 500, top := 300
         right := UNINITIALIZEDLONG, bottom := UNINITIALIZEDLONG }) :=
  (startCaptureInit_spec bmFullHD uninitializedRect (500, 300)).2.2

/-! ### C7: select-all -/

/-- C7. WM_SELECTALL always produces the full-bitmap selection
{0, 0, bmWidth - 1, bmHeight - 1}, switches to statePointB and does not
move the cursor, regardless of the prior state and selection. -/
theorem selectAllHandler_spec (bm : Bitmap) (state : APPSTATE) (sel : Rect)
    (hw : 1 ≤ bm.bmWidth) (hh : 1 ≤ bm.bmHeight) :
    selectAllHandler bm state sel =
      { appState := APPSTATE.statePointB
        selection := { left := 0, top := 0
                       right := bm.bmWidth - 1, bottom := bm.bmHeight - 1 }
        cursorWarp := none } := by
  unfold selectAllHandler
  rw [limitXtoBitmap_id bm 0 (by omega) (by omega),
      limitYtoBitmap_id bm 0 (by omega) (by omega),
      limitXtoBitmap_id bm (bm.bmWidth - 1) (by omega) (by omega),
      limitYtoBitmap_id bm (bm.bmHeight - 1) (by omega) (by omega)]

/-- Concrete instance of select-all on the 1920x1080 bitmap from the tray
state. -/
theorem selectAllHandler_spec_witness :
    selectAllHandler bmFullHD APPSTATE.stateTrayIcon uninitializedRect =
      { appState := APPSTATE.statePointB
        selection := { left := 0, top := 0, right := 1919, bottom := 1079 }
        cursorWarp := none } :=
  selectAllHandler_spec bmFullHD APPSTATE.stateTrayIcon uninitializedRect
    (by decide) (by decide)

/-! ### C8: region transforms reset the selection to a single point -/

/-- C8. After pixelate (P) or mark-with-box (B) in an editing state, point
A is unchanged, point B is reset to the unset sentinel and the state
becomes stateFirstPoint (the cursor is warped to point A). -/
theorem regionTransformReset_spec (state : APPSTATE) (sel : Rect)
    (hstate : state = APPSTATE.statePointA ∨ state = APPSTATE.statePointB) :
    regionTransformReset state sel =
      { appState := APPSTATE.stateFirstPoint
        selection := { left := sel.left, top := sel.top
                       right := UNINITIALIZEDLONG, bottom := UNINITIALIZEDLONG }
        cursorWarp := some (sel.left, sel.top) } := by
  unfold regionTransformReset
  rw [if_pos (by tauto)]

/-- Concrete instance of the post-transform reset in statePointB. -/
theorem regionTransformReset_spec_witness :
    regionTransformReset APPSTATE.statePointB
      { left := 100, top := 100, right := 400, bottom := 300 } =
      { appState := APPSTATE.stateFirstPoint
        selection := { left := 100, top := 100
                       right := UNINITIALIZEDLONG, bottom := UNINITIALIZEDLONG }
        cursorWarp := some (100, 100) } :=
  regionTransformReset_spec APPSTATE.statePointB
    { left := 100, top := 100, right := 400, bottom := 300 } (Or.inr rfl)

/-! ### C10: keyboard hook swallows Print Screen -/

/-- C10. For an HC_ACTION event, the hook swallows the Print Screen key in
every program state and sends WM_STARTED exactly when the state is the
tray state; every other key is forwarded to the next hook. -/
theorem keyboardProc_spec (state : APPSTATE) (vkCode : Nat) (nCode : Int)
    (hn : nCode = HC_ACTION) :
    keyboardProc nCode state VK_SNAPSHOT =
      HookAction.swallow (state = APPSTATE.stateTrayIcon) ∧
    (vkCode ≠ VK_SNAPSHOT → keyboardProc nCode state vkCode = HookAction.callNext) := by
  subst hn
  unfold keyboardProc
  constructor
  · rw [if_pos rfl, if_pos rfl]
  · intro h
    rw [if_pos rfl, if_neg h]

/-- Concrete instance: Print Screen in statePointB is swallowed without a
WM_STARTED send, and key code 65 is forwarded. -/
theorem keyboardProc_spec_witness :
    keyboardProc 0 APPSTATE.statePointB VK_SNAPSHOT = HookAction.swallow false ∧
    keyboardProc 0 APPSTATE.statePointB 65 = HookAction.callNext :=
  ⟨(keyboardProc_spec APPSTATE.statePointB 65 0 rfl).1,
   (keyboardProc_spec APPSTATE.statePointB 65 0 rfl).2 (by decide)⟩

/-! ### C6: store-then-recall round trip -/

/-- C6. Storing a live selection whose fields lie inside the bitmap
(Insert) and recalling the stored selection (Home) with unchanged bitmap
bounds restores the identical rectangle, switches to statePointB and warps
the cursor to point B. -/
theorem store_recall_roundtrip (bm : Bitmap) (state2 : APPSTATE)
    (sel sel2 stored : Rect)
    (hl0 : 0 ≤ sel.left) (hl1 : sel.left ≤ bm.bmWidth - 1)
    (hr0 : 0 ≤ sel.right) (hr1 : sel.right ≤ bm.bmWidth - 1)
    (ht0 : 0 ≤ sel.top) (ht1 : sel.top ≤ bm.bmHeight - 1)
    (hb0 : 0 ≤ sel.bottom) (hb1 : sel.bottom ≤ bm.bmHeight - 1) :
    homeRecall bm state2 sel2 (insertStore sel stored) =
      { appState := APPSTATE.statePointB
        selection := sel
        cursorWarp := some (sel.right, sel.bottom) } := by
  have hvalid : isSelectionValid sel = true :=
    isSelectionValid_of_nonneg sel hl0 hr0 ht0 hb0
  unfold insertStore
  rw [if_pos hvalid]
  unfold homeRecall
  rw [if_pos hvalid,
      limitXtoBitmap_id bm sel.left hl0 hl1,
      limitXtoBitmap_id bm sel.right hr0 hr1,
      limitYtoBitmap_id bm sel.top ht0 ht1,
      limitYtoBitmap_id bm sel.bottom hb0 hb1]

/-- Concrete instance of the store/recall round trip. -/
theorem store_recall_roundtrip_witness :
    homeRecall bmFullHD APPSTATE.statePointA uninitializedRect
      (insertStore { left := 100, top := 100, right := 400, bottom := 300 }
        uninitializedRect) =
      { appState := APPSTATE.statePointB
        selection := { left := 100, top := 100, right := 400, bottom := 300 }
        cursorWarp := some (400, 300) } :=
  store_recall_roundtrip bmFullHD APPSTATE.statePointA
    { left := 100, top := 100, right := 400, bottom := 300 } uninitializedRect
    uninitializedRect (by decide) (by decide) (by decide) (by decide)
    (by decide) (by decide) (by decide) (by decide)

/-! ### C9: mark-with-box preserves the interior -/

/-- C9. Whenever markScreenshotRect succeeds, every pixel of the interior
region (the normalized selection deflated by lineWidth / 2 + 1, i.e.
strictly inside the blended frame band) keeps exactly its value from
before the operation, although the blend target (the selection inflated by
lineWidth / 2) overlaps the interior. -/
theorem markScreenshotRect_preserves_interior (bm : Bitmap) (rect : Rect)
    (lineWidth : Int) (blend : Nat → Nat) (out : Int → Int → Nat)
    (hout : markScreenshotRect bm rect lineWidth blend = some out) :
    ∀ x y,
      inRegion (inflateRect (normalizeRectangle rect) (-(Int.tdiv lineWidth 2 + 1))) x y →
      out x y = bm.pixel x y := by
  intro x y hxy
  unfold markScreenshotRect at hout
  by_cases hA : lineWidth < 1
  · rw [if_pos hA] at hout
    exact absurd hout (by simp)
  rw [if_neg hA] at hout
  by_cases hB : ¬ isSelectionValid rect
  · rw [if_pos hB] at hout
    exact absurd hout (by simp)
  rw [if_neg hB] at hout
  dsimp only [] at hout
  by_cases hC : (inflateRect (normalizeRectangle rect) (-(Int.tdiv lineWidth 2 + 1))).right -
      (inflateRect (normalizeRectangle rect) (-(Int.tdiv lineWidth 2 + 1))).left + 1 < 0 ∨
      (inflateRect (normalizeRectangle rect) (-(Int.tdiv lineWidth 2 + 1))).bottom -
      (inflateRect (normalizeRectangle rect) (-(Int.tdiv lineWidth 2 + 1))).top + 1 < 0
  · rw [if_pos hC] at hout
    exact absurd hout (by simp)
  rw [if_neg hC] at hout
  have heq := Option.some_inj.mp hout
  rw [← heq]
  unfold restoreRegion
  rw [if_pos hxy]

/-- Concrete instance of interior preservation: with selection
{10,10,40,40} and line width 3 the inner region is {12,12,38,38} and the
blend target {9,9,41,41}; pixel (20,20) keeps its original value. -/
theorem markScreenshotRect_preserves_interior_witness :
    restoreRegion
      (alphaBlendRegion bmFullHD.pixel
        { left := 9, top := 9, right := 41, bottom := 41 } (fun c => c + 1))
      bmFullHD.pixel
      { left := 12, top := 12, right := 38, bottom := 38 } 20 20 =
      bmFullHD.pixel 20 20 :=
  markScreenshotRect_preserves_interior bmFullHD
    { left := 10, top := 10, right := 40, bottom := 40 } 3 (fun c => c + 1)
    _ rfl 20 20 (by decide)

/-! ### C5: grow-then-shrink round trip -/

/-- A 100x100 bitmap used by the C5 counterexample and witness. -/
def bmSmall : Bitmap := { bmWidth := 100, bmHeight := 100, pixel := fun _ _ => 0 }

/-- C5 fails as stated: clamping at the bitmap border during growth also
breaks the round trip. Growing {50,50,95,60} by 10 on the 100x100 bitmap
clamps the right edge at 99, both axis spans of the grown rectangle
(59 and 30) are at least 2*10 so the shrink does not hit the collapse
edge case, yet shrinking by 10 yields {50,50,89,60}, not the original. -/
theorem resize_roundtrip_clamp_counterexample :
    resizeSelection bmSmall APPSTATE.statePointB 10
      { left := 50, top := 50, right := 95, bottom := 60 } =
      { left := 40, top := 40, right := 99, bottom := 70 } ∧
    (20 : Int) ≤ |(99 : Int) - 40| ∧ (20 : Int) ≤ |(40 : Int) - 70| ∧
    resizeSelection bmSmall APPSTATE.statePointB (-10)
      { left := 40, top := 40, right := 99, bottom := 70 } =
      { left := 50, top := 50, right := 89, bottom := 60 } ∧
    ({ left := 50, top := 50, right := 89, bottom := 60 } : Rect) ≠
      { left := 50, top := 50, right := 95, bottom := 60 } := by
  refine ⟨by decide, by decide, by decide, by decide, by decide⟩

/-- The (left, right) pair computed by the horizontal resize block, as a
function of the old left and right (the block reads and writes no other
field). -/
def fX (bm : Bitmap) (s l r : Int) : Int × Int :=
  if s < 0 ∧ |r - l| < |s * 2| then
    let m := limitXtoBitmap bm (Int.tdiv (r + l) 2)
    (m, m)
  else if l ≤ r then
    (limitXtoBitmap bm (l - s), limitXtoBitmap bm (r + s))
  else
    (limitXtoBitmap bm (l + s), limitXtoBitmap bm (r - s))

/-- The (top, bottom) pair computed by the vertical resize block
(collapse value (t + t) / 2, as in the source). -/
def fY (bm : Bitmap) (s t b : Int) : Int × Int :=
  if s < 0 ∧ |t - b| < |s * 2| then
    let m := limitYtoBitmap bm (Int.tdiv (t + t) 2)
    (m, m)
  else if t ≤ b then
    (limitYtoBitmap bm (t - s), limitYtoBitmap bm (b + s))
  else
    (limitYtoBitmap bm (t + s), limitYtoBitmap bm (b - s))

lemma resizeSelectionX_eq (bm : Bitmap) (s l t r b : Int) :
    resizeSelectionX bm s { left := l, top := t, right := r, bottom := b } =
      { left := (fX bm s l r).1, top := t, right := (fX bm s l r).2, bottom := b } := by
  unfold resizeSelectionX fX
  dsimp only
  split_ifs <;> rfl

lemma resizeSelectionY_eq (bm : Bitmap) (s l t r b : Int) :
    resizeSelectionY bm s { left := l, top := t, right := r, bottom := b } =
      { left := l, top := (fY bm s t b).1, right := r, bottom := (fY bm s t b).2 } := by
  unfold resizeSelectionY fY
  dsimp only
  split_ifs <;> rfl

lemma fX_roundtrip (bm : Bitmap) (k l r : Int) (hk : 0 ≤ k)
    (h0 : 0 ≤ min l r - k) (h1 : max l r + k ≤ bm.bmWidth - 1) :
    fX bm (-k) (fX bm k l r).1 (fX bm k l r).2 = (l, r) := by
  rcases le_or_lt l r with hlr | hlr
  · have hg : fX bm k l r = (l - k, r + k) := by
      unfold fX
      rw [if_neg (fun h => absurd h.1 (by omega)), if_pos hlr,
          limitXtoBitmap_id bm (l - k) (by omega) (by omega),
          limitXtoBitmap_id bm (r + k) (by omega) (by omega)]
    rw [hg]
    have hnc : ¬((-k : Int) < 0 ∧ |(r + k) - (l - k)| < |(-k) * 2|) := by
      rintro ⟨-, habs⟩
      rw [abs_of_nonneg (by omega), neg_mul, abs_neg, abs_mul,
          abs_of_nonneg hk, abs_two] at habs
      omega
    unfold fX
    rw [if_neg hnc, if_pos (by omega : l - k ≤ r + k),
        limitXtoBitmap_id bm (l - k - -k) (by omega) (by omega),
        limitXtoBitmap_id bm (r + k + -k) (by omega) (by omega)]
    simp only [Prod.mk.injEq]
    exact ⟨by omega, by omega⟩
  · have hg : fX bm k l r = (l + k, r - k) := by
      unfold fX
      rw [if_neg (fun h => absurd h.1 (by omega)), if_neg (by omega),
          limitXtoBitmap_id bm (l + k) (by omega) (by omega),
          limitXtoBitmap_id bm (r - k) (by omega) (by omega)]
    rw [hg]
    have hnc : ¬((-k : Int) < 0 ∧ |(r - k) - (l + k)| < |(-k) * 2|) := by
      rintro ⟨-, habs⟩
      rw [abs_of_nonpos (by omega), neg_mul, abs_neg, abs_mul,
          abs_of_nonneg hk, abs_two] at habs
      omega
    unfold fX
    rw [if_neg hnc, if_neg (by omega : ¬(l + k ≤ r - k)),
        limitXtoBitmap_id bm (l + k + -k) (by omega) (by omega),
        limitXtoBitmap_id bm (r - k - -k) (by omega) (by omega)]
    simp only [Prod.mk.injEq]
    exact ⟨by omega, by omega⟩

lemma fY_roundtrip (bm : Bitmap) (k t b : Int) (hk : 0 ≤ k)
    (h0 : 0 ≤ min t b - k) (h1 : max t b + k ≤ bm.bmHeight - 1) :
    fY bm (-k) (fY bm k t b).1 (fY bm k t b).2 = (t, b) := by
  rcases le_or_lt t b with htb | htb
  · have hg : fY bm k t b = (t - k, b + k) := by
      unfold fY
      rw [if_neg (fun h => absurd h.1 (by omega)), if_pos htb,
          limitYtoBitmap_id bm (t - k) (by omega) (by omega),
          limitYtoBitmap_id bm (b + k) (by omega) (by omega)]
    rw [hg]
    have hnc : ¬((-k : Int) < 0 ∧ |(t - k) - (b + k)| < |(-k) * 2|) := by
      rintro ⟨-, habs⟩
      rw [abs_of_nonpos (by omega), neg_mul, abs_neg, abs_mul,
          abs_of_nonneg hk, abs_two] at habs
      omega
    unfold fY
    rw [if_neg hnc, if_pos (by omega : t - k ≤ b + k),
        limitYtoBitmap_id bm (t - k - -k) (by omega) (by omega),
        limitYtoBitmap_id bm (b + k + -k) (by omega) (by omega)]
    simp only [Prod.mk.injEq]
    exact ⟨by omega, by omega⟩
  · have hg : fY bm k t b = (t + k, b - k) := by
      unfold fY
      rw [if_neg (fun h => absurd h.1 (by omega)), if_neg (by omega),
          limitYtoBitmap_id bm (t + k) (by omega) (by omega),
          limitYtoBitmap_id bm (b - k) (by omega) (by omega)]
    rw [hg]
    have hnc : ¬((-k : Int) < 0 ∧ |(t + k) - (b - k)| < |(-k) * 2|) := by
      rintro ⟨-, habs⟩
      rw [abs_of_nonneg (by omega), neg_mul, abs_neg, abs_mul,
          abs_of_nonneg hk, abs_two] at habs
      omega
    unfold fY
    rw [if_neg hnc, if_neg (by omega : ¬(t + k ≤ b - k)),
        limitYtoBitmap_id bm (t + k + -k) (by omega) (by omega),
        limitYtoBitmap_id bm (b - k - -k) (by omega) (by omega)]
    simp only [Prod.mk.injEq]
    exact ⟨by omega, by omega⟩

/-- C5 amended: in an editing state, growing by +k (k ≥ 0) and then
shrinking by -k returns the original rectangle provided no grown
coordinate is clamped at the bitmap border (then the shrink's collapse
edge case cannot trigger either, since the grown span is at least 2k). -/
theorem resize_grow_shrink_roundtrip (bm : Bitmap) (state : APPSTATE)
    (k : Int) (sel : Rect)
    (hstate : state = APPSTATE.statePointA ∨ state = APPSTATE.statePointB)
    (hk : 0 ≤ k)
    (hx0 : 0 ≤ min sel.left sel.right - k)
    (hx1 : max sel.left sel.right + k ≤ bm.bmWidth - 1)
    (hy0 : 0 ≤ min sel.top sel.bottom - k)
    (hy1 : max sel.top sel.bottom + k ≤ bm.bmHeight - 1) :
    resizeSelection bm state (-k) (resizeSelection bm state k sel) = sel := by
  obtain ⟨l, t, r, b⟩ := sel
  simp only at hx0 hx1 hy0 hy1
  have hedit : ∀ (s : Int) (w : Rect), resizeSelection bm state s w =
      resizeSelectionY bm s (resizeSelectionX bm s w) := by
    intro s w
    unfold resizeSelection
    rcases hstate with h | h <;> subst h <;> rw [if_neg (by simp)]
  rw [hedit, hedit]
  simp only [resizeSelectionX_eq, resizeSelectionY_eq]
  rw [fX_roundtrip bm k l r hk hx0 hx1, fY_roundtrip bm k t b hk hy0 hy1]

/-- Concrete instance of the amended round trip, away from the borders. -/
theorem resize_grow_shrink_roundtrip_witness :
    resizeSelection bmSmall APPSTATE.statePointB (-10)
      (resizeSelection bmSmall APPSTATE.statePointB 10
        { left := 30, top := 30, right := 60, bottom := 60 }) =
      { left := 30, top := 30, right := 60, bottom := 60 } :=
  resize_grow_shrink_roundtrip bmSmall APPSTATE.statePointB 10
    { left := 30, top := 30, right := 60, bottom := 60 } (Or.inr rfl)
    (by decide) (by decide) (by decide) (by decide) (by decide)

/-! ### C2: seek color edge (setBeforeColorChange) -/

/-- A pixel GetPixel reports a color for lies inside the bitmap. -/
lemma getPixel_bounds (bm : Bitmap) (x y : Int) (c : Nat)
    (h : getPixel bm x y = some c) :
    0 ≤ x ∧ x ≤ bm.bmWidth - 1 ∧ 0 ≤ y ∧ y ≤ bm.bmHeight - 1 := by
  by_contra hb
  unfold getPixel at h
  rw [if_neg hb] at h
  exact absurd h (by simp)

/-- Number of steps from (x, y) to the bitmap border in the direction of
the given arrow key; an upper bound for the iterations of seekLoop. -/
def seekSteps (bm : Bitmap) (key : ArrowKey) (x y : Int) : Nat :=
  match key with
  | ArrowKey.up => y.toNat
  | ArrowKey.down => (bm.bmHeight - 1 - y).toNat
  | ArrowKey.left => x.toNat
  | ArrowKey.right => (bm.bmWidth - 1 - x).toNat

/-- With a start pixel of color c inside the bitmap and enough fuel, the
seek walk ends after some k steps at a position whose whole path still
shows color c, one step short of the first position whose sampled color
differs (out-of-bitmap positions sample as CLR_INVALID and so also
differ). -/
lemma seekLoop_spec (bm : Bitmap) (c : Nat) (key : ArrowKey) :
    ∀ (fuel : Nat) (x y : Int), getPixel bm x y = some c →
      seekSteps bm key x y < fuel →
      ∃ k : Nat,
        seekLoop bm (some c) (arrowDirection key).1 (arrowDirection key).2
            fuel (x, y) =
          (x + (k : Int) * (arrowDirection key).1,
           y + (k : Int) * (arrowDirection key).2) ∧
        (∀ i : Nat, i ≤ k →
          getPixel bm (x + (i : Int) * (arrowDirection key).1)
            (y + (i : Int) * (arrowDirection key).2) = some c) ∧
        getPixel bm (x + ((k : Int) + 1) * (arrowDirection key).1)
          (y + ((k : Int) + 1) * (arrowDirection key).2) ≠ some c := by
  intro fuel
  induction fuel with
  | zero =>
    intro x y hstart hfuel
    exact absurd hfuel (Nat.not_lt_zero _)
  | succ fuel ih =>
    intro x y hstart hfuel
    have hin := getPixel_bounds bm x y c hstart
    by_cases hc : getPixel bm (x + (arrowDirection key).1)
        (y + (arrowDirection key).2) = some c
    · have hnin := getPixel_bounds bm _ _ c hc
      have hstep : seekLoop bm (some c) (arrowDirection key).1
          (arrowDirection key).2 (fuel + 1) (x, y) =
          seekLoop bm (some c) (arrowDirection key).1 (arrowDirection key).2
            fuel (x + (arrowDirection key).1, y + (arrowDirection key).2) := by
        simp only [seekLoop]
        rw [if_neg (not_not_intro hc), if_neg (by omega),
            limitXtoBitmap_id bm _ (by omega) (by omega),
            limitYtoBitmap_id bm _ (by omega) (by omega)]
      have hm : seekSteps bm key (x + (arrowDirection key).1)
          (y + (arrowDirection key).2) < fuel := by
        cases key <;> dsimp only [seekSteps, arrowDirection] at hfuel hnin ⊢ <;> omega
      obtain ⟨k, hk1, hk2, hk3⟩ :=
        ih (x + (arrowDirection key).1) (y + (arrowDirection key).2) hc hm
      refine ⟨k + 1, ?_, ?_, ?_⟩
      · rw [hstep, hk1]
        simp only [Prod.mk.injEq]
        constructor <;> push_cast <;> ring
      · intro i hi
        cases i with
        | zero => simpa using hstart
        | succ j =>
          have h2 := hk2 j (by omega)
          have e1 : x + ((j + 1 : Nat) : Int) * (arrowDirection key).1 =
              x + (arrowDirection key).1 + (j : Int) * (arrowDirection key).1 := by
            push_cast
            ring
          have e2 : y + ((j + 1 : Nat) : Int) * (arrowDirection key).2 =
              y + (arrowDirection key).2 + (j : Int) * (arrowDirection key).2 := by
            push_cast
            ring
          rw [e1, e2]
          exact h2
      · have e1 : x + (((k + 1 : Nat) : Int) + 1) * (arrowDirection key).1 =
            x + (arrowDirection key).1 + ((k : Int) + 1) * (arrowDirection key).1 := by
          push_cast
          ring
        have e2 : y + (((k + 1 : Nat) : Int) + 1) * (arrowDirection key).2 =
            y + (arrowDirection key).2 + ((k : Int) + 1) * (arrowDirection key).2 := by
          push_cast
          ring
        rw [e1, e2]
        exact hk3
    · refine ⟨0, ?_, ?_, ?_⟩
      · simp only [seekLoop]
        rw [if_pos hc]
        simp
      · intro i hi
        have hi0 : i = 0 := Nat.le_zero.mp hi
        subst hi0
        simpa using hstart
      · simpa using hc

/-- C2. From a start pixel of color c, the seek walk in the direction of
the arrow key ends k steps away, every sampled pixel on the walk
(including start and end) still has color c, and the next pixel in that
direction either lies outside the bitmap or has a different color (one
step short of the first change). In particular, on a bitmap of one
uniform color the walk ends exactly at the boundary pixel in the walk
direction. -/
theorem setBeforeColorChange_spec (bm : Bitmap) (key : ArrowKey)
    (x y : Int) (c : Nat) (hstart : getPixel bm x y = some c) :
    (∃ k : Nat,
      setBeforeColorChange bm key x y =
        (x + (k : Int) * (arrowDirection key).1,
         y + (k : Int) * (arrowDirection key).2) ∧
      (∀ i : Nat, i ≤ k →
        getPixel bm (x + (i : Int) * (arrowDirection key).1)
          (y + (i : Int) * (arrowDirection key).2) = some c) ∧
      getPixel bm (x + ((k : Int) + 1) * (arrowDirection key).1)
        (y + ((k : Int) + 1) * (arrowDirection key).2) ≠ some c) ∧
    ((∀ a b : Int, bm.pixel a b = c) →
      setBeforeColorChange bm key x y =
        (match key with
         | ArrowKey.up => (x, 0)
         | ArrowKey.down => (x, bm.bmHeight - 1)
         | ArrowKey.left => (0, y)
         | ArrowKey.right => (bm.bmWidth - 1, y))) := by
  have hin := getPixel_bounds bm x y c hstart
  have hfuel : seekSteps bm key x y < seekFuel bm := by
    cases key <;> dsimp only [seekSteps, seekFuel] <;> omega
  have hset : setBeforeColorChange bm key x y =
      seekLoop bm (some c) (arrowDirection key).1 (arrowDirection key).2
        (seekFuel bm) (x, y) := by
    unfold setBeforeColorChange
    dsimp only
    rw [hstart]
  obtain ⟨k, h1, h2, h3⟩ := seekLoop_spec bm c key (seekFuel bm) x y hstart hfuel
  constructor
  · exact ⟨k, by rw [hset]; exact h1, h2, h3⟩
  · intro huni
    have hkin := getPixel_bounds bm _ _ c (h2 k le_rfl)
    have hnext : ¬(0 ≤ x + ((k : Int) + 1) * (arrowDirection key).1 ∧
        x + ((k : Int) + 1) * (arrowDirection key).1 ≤ bm.bmWidth - 1 ∧
        0 ≤ y + ((k : Int) + 1) * (arrowDirection key).2 ∧
        y + ((k : Int) + 1) * (arrowDirection key).2 ≤ bm.bmHeight - 1) := by
      intro hb
      apply h3
      unfold getPixel
      rw [if_pos hb, huni]
    rw [hset, h1]
    cases key <;>
      dsimp only [arrowDirection] at hkin hnext ⊢ <;>
      simp only [Prod.mk.injEq] <;>
      constructor <;> omega

/-- A 4x3 bitmap of one uniform color (7), for the seek witness. -/
def bmTiny : Bitmap := { bmWidth := 4, bmHeight := 3, pixel := fun _ _ => 7 }

/-- Concrete instance: seeking right from (1,1) on the uniform 4x3 bitmap
stops at the right border pixel (3,1). -/
theorem setBeforeColorChange_spec_witness :
    setBeforeColorChange bmTiny ArrowKey.right 1 1 = (3, 1) :=
  (setBeforeColorChange_spec bmTiny ArrowKey.right 1 1 7 (by decide)).2
    (fun _ _ => rfl)

end AbiSnip
